import Mathlib

/-!
Verification of the NLQ Translator validation / extraction core.

This file gives a shallow embedding, in Lean 4, of the two modules the
specification calls the core of the system:

* `nlq_translator/elasticsearch/query_validator.py` — the class
  `ElasticsearchQueryValidator` (structural validation of a query document,
  plus conformance checking against an optional mapping / schema), and
* `nlq_translator/utils/query_utils.py` — the function `parse_query_string`
  (the "Tolerant Extractor" / `recover` of the spec).

Modelling conventions, used throughout:

* JSON-like values (Python objects produced by `json.loads`) are the type
  `SV` below.  Python dicts are ordered association lists
  `List (String × SV)` — CPython dicts preserve insertion order and have
  unique keys; the embedding's lists can also represent duplicate keys,
  which no Python dict exhibits, so theorems quantified over such lists
  are strictly more general than the Python originals on exactly those
  extra inputs.
* Python numbers are modelled as `Int`.  Floating point values are outside
  the model.
* The validator's recursive procedures recurse through values reached by
  dictionary lookup, which Lean's structural termination checker cannot
  follow; every recursive procedure therefore carries an explicit `fuel`
  argument, decremented once per recursion level, and exhausted fuel
  returns a `RecursionError` artifact mirroring Python's bounded stack.
  Fuel equal to the nesting depth of the input is always sufficient, and
  theorems are stated either for every fuel or for an explicitly adequate
  one.
* Python exceptions escaping a function are the `.error` case of `Except
  PyExc`; functions that cannot raise are pure.
* Python hash sets are modelled as duplicate-free lists in insertion
  order.  CPython iterates a set of strings in a hash order randomized per
  process, so no theorem below relies on the order chosen here; where the
  source's behaviour depends on that order it is flagged as not statable.
-/

/-- Structured JSON-like value: the Python objects that `json.loads`
produces and the validator consumes (spec: StructuredValue). -/
inductive SV where
  | null : SV
  | bool (b : Bool) : SV
  | num (n : Int) : SV
  | str (s : String) : SV
  | arr (l : List SV) : SV
  | obj (l : List (String × SV)) : SV

/-- First-occurrence lookup in an association list: Python `d[k]` /
`d.get(k)` on a dict (unique keys make first occurrence the occurrence). -/
def alookup : List (String × SV) → String → Option SV
  | [], _ => none
  | (k, v) :: rest, key => if k == key then some v else alookup rest key

/-- Python truthiness of a JSON-like value: `bool(x)`. -/
def pythonTruthy : SV → Bool
  | SV.null => false
  | SV.bool b => b
  | SV.num n => n != 0
  | SV.str s => s != ""
  | SV.arr l => !l.isEmpty
  | SV.obj l => !l.isEmpty

/-- Python `x == {}` for a JSON-like value: true exactly on the empty dict. -/
def isEmptyDict : SV → Bool
  | SV.obj [] => true
  | _ => false

/-- Python `isinstance(x, int)`: true for ints and also for bools, since
Python `bool` is a subclass of `int`. -/
def pyIsInt : SV → Bool
  | SV.num _ => true
  | SV.bool _ => true
  | _ => false

/-- Integer value of a Python int-like value (`True == 1`, `False == 0`). -/
def pyIntValue : SV → Int
  | SV.num n => n
  | SV.bool b => if b then 1 else 0
  | _ => 0

/-- Python type name of a JSON-like value, as it appears in exception
messages. -/
def pyTypeName : SV → String
  | SV.null => "NoneType"
  | SV.bool _ => "bool"
  | SV.num _ => "int"
  | SV.str _ => "str"
  | SV.arr _ => "list"
  | SV.obj _ => "dict"

/-- Python `sep.join(items)`. -/
def pyJoin (sep : String) : List String → String
  | [] => ""
  | [a] => a
  | a :: b :: rest => a ++ sep ++ pyJoin sep (b :: rest)

/-- Insertion into a Python set modelled as a duplicate-free list in
insertion order: `s.add(x)`. -/
def sAdd (acc : List String) (x : String) : List String :=
  if acc.contains x then acc else acc ++ [x]

/-- A Python exception escaping a function of the embedded code. -/
inductive PyExc where
  | attributeError (msg : String)
  | typeError (msg : String)
  | recursionError
deriving DecidableEq

/-! ## Grammar Registry

The three constant sets of `ElasticsearchQueryValidator`, kept in the
source's order.  Python holds them as hash sets used only for membership
tests, so a list with `contains` is a faithful model. -/

/-- Source: `ElasticsearchQueryValidator.VALID_TOP_LEVEL_KEYS` (spec:
TopLevelKeys). -/
def VALID_TOP_LEVEL_KEYS : List String :=
  ["query", "from", "size", "sort", "aggs", "aggregations",
   "_source", "fields", "script_fields", "stored_fields",
   "highlight", "post_filter", "rescore", "explain", "version",
   "track_total_hits", "min_score", "track_scores", "timeout",
   "terminate_after", "search_after", "pit", "runtime_mappings"]

/-- Source: `ElasticsearchQueryValidator.VALID_QUERY_TYPES` (spec:
ClauseTypes). -/
def VALID_QUERY_TYPES : List String :=
  ["match", "match_phrase", "match_phrase_prefix", "match_bool_prefix",
   "multi_match", "term", "terms", "range", "exists", "prefix", "wildcard",
   "regexp", "fuzzy", "ids", "bool", "dis_max", "function_score", "boosting",
   "nested", "has_child", "has_parent", "parent_id", "geo_shape", "geo_bounding_box",
   "geo_distance", "geo_polygon", "more_like_this", "script", "script_score",
   "wrapper", "pinned", "distance_feature", "rank_feature", "percolate",
   "intervals", "match_all", "match_none"]

/-- Source: the local `valid_bool_clauses` of `_validate_query_structure`
(spec: BoolSubClauses). -/
def validBoolClauses : List String :=
  ["must", "must_not", "should", "filter", "minimum_should_match", "boost"]

/-! ## Structural Validator -/

/-- Whether a present paging value fails the check `not isinstance(x, int)
or x < 0` of `_validate_top_level_structure` (absent values fail
nothing). -/
def badPagingValue : Option SV → Bool
  | none => false
  | some v => !(pyIsInt v) || decide (pyIntValue v < 0)

/-- Source: `ElasticsearchQueryValidator._validate_top_level_structure`.
Collects every top-level key outside `VALID_TOP_LEVEL_KEYS` (in input
order, as the Python list comprehension does), then checks the paging
keys via `badPagingValue` (the `"size" in query_dict and (not
isinstance(query_dict["size"], int) or query_dict["size"] < 0)`
condition). -/
def validate_top_level_structure (query_dict : List (String × SV)) : Option String :=
  let unknown_keys := (query_dict.map Prod.fst).filter
    (fun k => !(VALID_TOP_LEVEL_KEYS.contains k))
  if !unknown_keys.isEmpty then
    some ("Unknown top-level keys: " ++ pyJoin ", " unknown_keys)
  else
    if badPagingValue (alookup query_dict "size") then
      some "'size' must be a non-negative integer"
    else if badPagingValue (alookup query_dict "from") then
      some "'from' must be a non-negative integer"
    else none

/-- First error among the recursive checks of the items of a clause array
(the `for item in clause_value` loop of `_validate_query_structure`). -/
def firstErrWith (f : SV → Option String) : List SV → Option String
  | [] => none
  | x :: rest =>
      match f x with
      | some e => some e
      | none => firstErrWith f rest

/-- One `bool` sub-clause check of `_validate_query_structure`: the body of
the `for clause in ["must", "must_not", "should", "filter"]` loop for one
clause name, given the recursive validator `f`.  `none` input means the
clause key is absent (`if clause in bool_query` fails). -/
def clauseValCheck (f : SV → Option String) (name : String) : Option SV → Option String
  | none => none
  | some (SV.obj m) =>
      match f (SV.obj m) with
      | some e => some ("Error in '" ++ name ++ "' clause: " ++ e)
      | none => none
  | some (SV.arr items) =>
      match firstErrWith f items with
      | some e => some ("Error in '" ++ name ++ "' clause: " ++ e)
      | none => none
  | some _ => some ("'" ++ name ++ "' clause must be a JSON object or array")

/-- Source: `ElasticsearchQueryValidator._validate_query_structure`.

`fuel` bounds the recursion depth (see the module comment).  The Python
`query_type = next(iter(query.keys()), None)` is the first key of the
dict; for a dict whose first pair is `(k, v)`, `query[query_type]` is `v`,
which the pattern match binds directly.  The loop over the literal list
`["must", "must_not", "should", "filter"]` is unrolled into the four
sequential `clauseValCheck` calls, in the source's order. -/
def validate_query_structure : Nat → SV → Option String
  | 0, _ => some "RecursionError"
  | fuel + 1, q =>
      match q with
      | SV.obj [] => some "'query' cannot be empty"
      | SV.obj ((k, v) :: _rest) =>
          if k == "match_all" && (!(pythonTruthy v) || isEmptyDict v) then none
          else if !(VALID_QUERY_TYPES.contains k) then
            some ("Unknown query type: " ++ k)
          else if k == "bool" then
            match v with
            | SV.obj bool_query =>
                let unknown_clauses := (bool_query.map Prod.fst).filter
                  (fun c => !(validBoolClauses.contains c))
                if !unknown_clauses.isEmpty then
                  some ("Unknown 'bool' clauses: " ++ pyJoin ", " unknown_clauses)
                else
                  match clauseValCheck (validate_query_structure fuel) "must"
                      (alookup bool_query "must") with
                  | some e => some e
                  | none =>
                    match clauseValCheck (validate_query_structure fuel) "must_not"
                        (alookup bool_query "must_not") with
                    | some e => some e
                    | none =>
                      match clauseValCheck (validate_query_structure fuel) "should"
                          (alookup bool_query "should") with
                      | some e => some e
                      | none =>
                        clauseValCheck (validate_query_structure fuel) "filter"
                          (alookup bool_query "filter")
            | _ => some "'bool' query must be a JSON object"
          else if k == "nested" then
            match v with
            | SV.obj nested_query =>
                if (alookup nested_query "path").isNone then
                  some "'nested' query must have a 'path' field"
                else
                  match alookup nested_query "query" with
                  | none => some "'nested' query must have a 'query' field"
                  | some nq =>
                      match validate_query_structure fuel nq with
                      | some e => some ("Error in 'nested' query: " ++ e)
                      | none => none
            | _ => some "'nested' query must be a JSON object"
          else none
      | _ => some "'query' must be a JSON object"

/-! ## Schema Flattener (`_extract_field_names_from_mapping`)

The Python inner function `extract_fields(prefix, obj)` mutates a set
`field_names`; here the set is the threaded accumulator and a raised
exception is the `.error` case.  Two places raise `AttributeError` on a
malformed mapping: `obj["properties"].items()` when the value under
`"properties"` is not a dict, and `field_def.get("type")` when a property
definition is not a dict. -/

/-- The `for field_name, field_def in obj["properties"].items()` loop,
given the recursive walker `rec` (prefix, object, accumulator). -/
def propsLoop (rec : String → SV → List String → Except PyExc (List String))
    (pfx : String) :
    List (String × SV) → List String → Except PyExc (List String)
  | [], acc => .ok acc
  | (field_name, field_def) :: rest, acc =>
      let full_name := pfx ++ field_name
      let acc1 := sAdd acc full_name
      match field_def with
      | SV.obj fd =>
          let isNested : Bool :=
            match alookup fd "type" with
            | some (SV.str t) => t == "nested"
            | _ => false
          let hasProps : Bool := (alookup fd "properties").isSome
          if isNested && hasProps then
            match rec (full_name ++ ".") (SV.obj fd) acc1 with
            | .ok acc2 => propsLoop rec pfx rest acc2
            | .error e => .error e
          else if hasProps then
            match rec (full_name ++ ".") (SV.obj fd) acc1 with
            | .ok acc2 => propsLoop rec pfx rest acc2
            | .error e => .error e
          else propsLoop rec pfx rest acc1
      | _ =>
          .error (PyExc.attributeError
            ("'" ++ pyTypeName field_def ++ "' object has no attribute 'get'"))

/-- The `for key, value in obj.items()` loop of the mapping walker: every
non-`"properties"` dict value is recursed into with an extended prefix. -/
def othersLoop (rec : String → SV → List String → Except PyExc (List String))
    (pfx : String) :
    List (String × SV) → List String → Except PyExc (List String)
  | [], acc => .ok acc
  | (key, value) :: rest, acc =>
      if key != "properties" then
        match value with
        | SV.obj vl =>
            match rec (pfx ++ key ++ ".") (SV.obj vl) acc with
            | .ok acc2 => othersLoop rec pfx rest acc2
            | .error e => .error e
        | _ => othersLoop rec pfx rest acc
      else othersLoop rec pfx rest acc

/-- Source: the inner `extract_fields(prefix, obj)` of
`_extract_field_names_from_mapping`. -/
def extract_fields_m : Nat → String → SV → List String → Except PyExc (List String)
  | 0, _, _, _ => .error PyExc.recursionError
  | fuel + 1, pfx, o, acc =>
      match o with
      | SV.obj l =>
          match alookup l "properties" with
          | none => othersLoop (extract_fields_m fuel) pfx l acc
          | some (SV.obj props) =>
              match propsLoop (extract_fields_m fuel) pfx props acc with
              | .ok acc2 => othersLoop (extract_fields_m fuel) pfx l acc2
              | .error e => .error e
          | some bad =>
              .error (PyExc.attributeError
                ("'" ++ pyTypeName bad ++ "' object has no attribute 'items'"))
      | _ => .ok acc

/-- Source: `ElasticsearchQueryValidator._extract_field_names_from_mapping`. -/
def extract_field_names_from_mapping (fuel : Nat)
    (mapping : List (String × SV)) : Except PyExc (List String) :=
  extract_fields_m fuel "" (SV.obj mapping) []

/-! ## Field Reference Extractor (`_extract_field_names_from_query`) -/

/-- Clause names whose body keys are field names: the literal set in the
`key in {"term", ...}` test of `_extract_field_names_from_query`. -/
def FIELD_NAME_CLAUSES : List String :=
  ["term", "terms", "match", "match_phrase", "range", "exists", "prefix",
   "wildcard", "regexp", "fuzzy"]

/-- `field_names.update(value.keys())`: add every key of a clause body, in
order. -/
def addKeys (acc : List String) : List (String × SV) → List String
  | [] => acc
  | (k, _) :: rest => addKeys (sAdd acc k) rest

/-- The `for field in fields` loop of the `multi_match` branch.  A string
field has any `^boost` suffix stripped (`field.split("^")[0]`); a
non-string raises the same exception CPython does: `"^" in field` raises
`TypeError` for non-iterable values, a list or dict containing `"^"`
reaches `field.split` and raises `AttributeError`, and an unhashable or
non-matching one fails in `"^" in field` or `set.add`. -/
def mmFieldsLoop : List SV → List String → Except PyExc (List String)
  | [], acc => .ok acc
  | f :: rest, acc =>
      match f with
      | SV.str s =>
          let s2 := if s.data.contains (Char.ofNat 94)
            then String.mk (s.data.takeWhile (fun c => c != Char.ofNat 94))
            else s
          mmFieldsLoop rest (sAdd acc s2)
      | SV.arr l =>
          if l.any (fun x => match x with | SV.str s => s == "^" | _ => false) then
            .error (PyExc.attributeError "'list' object has no attribute 'split'")
          else .error (PyExc.typeError "unhashable type: 'list'")
      | SV.obj l =>
          if (l.map Prod.fst).contains "^" then
            .error (PyExc.attributeError "'dict' object has no attribute 'split'")
          else .error (PyExc.typeError "unhashable type: 'dict'")
      | other =>
          .error (PyExc.typeError
            ("argument of type '" ++ pyTypeName other ++ "' is not iterable"))

/-- The item loop `for item in value` of the query walker: only dict and
list items are passed to the recursive call (and the walker ignores
non-dict arguments, as the source's first `isinstance` guard does). -/
def qItemsLoop (rec : SV → List String → Except PyExc (List String)) :
    List SV → List String → Except PyExc (List String)
  | [], acc => .ok acc
  | item :: rest, acc =>
      match item with
      | SV.obj _ =>
          match rec item acc with
          | .ok acc2 => qItemsLoop rec rest acc2
          | .error e => .error e
      | SV.arr _ =>
          match rec item acc with
          | .ok acc2 => qItemsLoop rec rest acc2
          | .error e => .error e
      | _ => qItemsLoop rec rest acc

/-- The `for key, value in obj.items()` dispatch of
`_extract_field_names_from_query`: field-bearing clause names contribute
their body's keys, `multi_match` contributes its `fields` entries, and all
other dict or list values are traversed transparently. -/
def qPairsLoop (rec : SV → List String → Except PyExc (List String)) :
    List (String × SV) → List String → Except PyExc (List String)
  | [], acc => .ok acc
  | (key, value) :: rest, acc =>
      if FIELD_NAME_CLAUSES.contains key then
        match value with
        | SV.obj vl => qPairsLoop rec rest (addKeys acc vl)
        | _ => qPairsLoop rec rest acc
      else
        let mmFields : Option SV :=
          if key == "multi_match" then
            match value with
            | SV.obj vl => alookup vl "fields"
            | _ => none
          else none
        match mmFields with
        | some (SV.arr fields) =>
            match mmFieldsLoop fields acc with
            | .ok acc2 => qPairsLoop rec rest acc2
            | .error e => .error e
        | some _ => qPairsLoop rec rest acc
        | none =>
            match value with
            | SV.obj _ =>
                match rec value acc with
                | .ok acc2 => qPairsLoop rec rest acc2
                | .error e => .error e
            | SV.arr items =>
                match qItemsLoop rec items acc with
                | .ok acc2 => qPairsLoop rec rest acc2
                | .error e => .error e
            | _ => qPairsLoop rec rest acc

/-- Source: the inner `extract_fields(obj)` of
`_extract_field_names_from_query`.  Non-dict arguments are ignored. -/
def extract_fields_q : Nat → SV → List String → Except PyExc (List String)
  | 0, _, _ => .error PyExc.recursionError
  | fuel + 1, o, acc =>
      match o with
      | SV.obj l => qPairsLoop (extract_fields_q fuel) l acc
      | _ => .ok acc

/-- Source: `ElasticsearchQueryValidator._extract_field_names_from_query`. -/
def extract_field_names_from_query (fuel : Nat)
    (query_dict : List (String × SV)) : Except PyExc (List String) :=
  extract_fields_q fuel (SV.obj query_dict) []

/-- Source: `ElasticsearchQueryValidator._validate_against_mapping`.  The
Python `unknown_fields` comprehension iterates a hash set whose order is
randomized per process; the embedding iterates the extractor's insertion
order, and no theorem below relies on that choice. -/
def validate_against_mapping (fuel : Nat) (mapping : List (String × SV))
    (query_dict : List (String × SV)) : Except PyExc (Option String) :=
  match extract_field_names_from_mapping fuel mapping with
  | .error e => .error e
  | .ok field_names =>
      match extract_field_names_from_query fuel query_dict with
      | .error e => .error e
      | .ok query_fields =>
          let unknown_fields := query_fields.filter
            (fun f => !(field_names.contains f))
          .ok (if unknown_fields.isEmpty then none
               else some ("Unknown fields in query: " ++ pyJoin ", " unknown_fields))

/-- Source: `ElasticsearchQueryValidator.validate`, applied to an already
parsed document (the dict case of its `Union[str, Dict]` argument; the
string case is `json.loads` composed with this).  `mapping` is the
validator's `self.mapping`; `if self.mapping:` skips conformance checking
for `None` and for an empty dict alike. -/
def validate (fuel : Nat) (mapping : Option (List (String × SV))) (query : SV) :
    Except PyExc (Bool × Option String) :=
  match query with
  | SV.obj query_dict =>
      match validate_top_level_structure query_dict with
      | some e => .ok (false, some e)
      | none =>
          match (match alookup query_dict "query" with
                 | some qv => validate_query_structure fuel qv
                 | none => none) with
          | some e => .ok (false, some e)
          | none =>
              match mapping with
              | some m =>
                  if !m.isEmpty then
                    match validate_against_mapping fuel m query_dict with
                    | .ok (some e) => .ok (false, some e)
                    | .ok none => .ok (true, none)
                    | .error exc => .error exc
                  else .ok (true, none)
              | none => .ok (true, none)
  | _ => .ok (false, some "Query must be a JSON object")

/-! ## Spec-side definitions

These definitions are written from the specification's words, not from the
source, and are compared with the embedded source in the refinement-style
theorems below. -/

/-- Modelled from the spec (4.3 step 4, bullet on the boolean composition):
a sub-key's value is "either a single clause or an array of clauses, each of
which is recursively validated by this same procedure"; an absent sub-key
imposes nothing.  `good` is the recursive clause predicate. -/
def goodClauseVal (good : SV → Bool) : Option SV → Bool
  | none => true
  | some (SV.obj m) => good (SV.obj m)
  | some (SV.arr items) => items.all good
  | some _ => false

/-- Modelled from the spec (4.3 step 4): a grammatically well-formed clause.
A clause is a non-empty object; its type is its first key and must be a
member of ClauseTypes; a boolean composition's body is an object whose keys
all lie in BoolSubClauses and whose four clause-bearing sub-keys hold
well-formed clause values; a nested-relation composition's body is an object
containing both a path key and a query key whose value is a well-formed
clause; all other clause types constrain nothing further.  The fuel
discipline matches `validate_query_structure` step for step. -/
def goodClause : Nat → SV → Bool
  | 0, _ => false
  | fuel + 1, SV.obj ((k, v) :: _rest) =>
      VALID_QUERY_TYPES.contains k &&
      (if k == "bool" then
        match v with
        | SV.obj bl =>
            (bl.map Prod.fst).all (fun c => validBoolClauses.contains c) &&
            goodClauseVal (goodClause fuel) (alookup bl "must") &&
            goodClauseVal (goodClause fuel) (alookup bl "must_not") &&
            goodClauseVal (goodClause fuel) (alookup bl "should") &&
            goodClauseVal (goodClause fuel) (alookup bl "filter")
        | _ => false
      else if k == "nested" then
        match v with
        | SV.obj nl =>
            (alookup nl "path").isSome &&
            (match alookup nl "query" with
             | some nq => goodClause fuel nq
             | none => false)
        | _ => false
      else true)
  | _ + 1, _ => false

/-- Modelled from the spec (4.3 step 4, boolean composition): evaluate the
four clause-bearing sub-keys in the fixed priority order must, must_not,
should, filter, as a function of those four values alone (so of nothing
else in the body), reporting the first sub-clause error under that order. -/
def boolOrderSpec (check : SV → Option String)
    (must must_not should_ filter_ : Option SV) : Option String :=
  match clauseValCheck check "must" must with
  | some e => some e
  | none =>
      match clauseValCheck check "must_not" must_not with
      | some e => some e
      | none =>
          match clauseValCheck check "should" should_ with
          | some e => some e
          | none => clauseValCheck check "filter" filter_

/-! ## Tolerant Extractor (`query_utils.parse_query_string`)

The source calls `json.loads` (Python standard library, not part of this
repository) and `re.search` with two fixed patterns.  `json.loads` is
modelled from the spec as a recursive-descent JSON reader; the two regular
expressions are modelled as backtracking searches specialized to their
patterns.  Restrictions of the JSON model, documented here once: numbers
are integers (no fraction / exponent grammar, no floats), and a `\uXXXX`
escape becomes the scalar value it denotes without combining surrogate
pairs.  No theorem below depends on the excluded cases.

The value reader carries fuel.  Every recursive call consumes at least one
input character and decrements the fuel exactly once, so fuel equal to the
input length plus one never runs out; `json_loads` passes exactly that. -/

/-- JSON whitespace: the four characters `json.decoder` skips. -/
def jsonWs (c : Char) : Bool :=
  c == ' ' || c == '\t' || c == '\n' || c == '\r'

/-- Drop leading JSON whitespace. -/
def skipWs : List Char → List Char
  | [] => []
  | c :: rest => if jsonWs c then skipWs rest else c :: rest

/-- ASCII decimal digit test. -/
def isDigitCh (c : Char) : Bool :=
  48 ≤ c.toNat && c.toNat ≤ 57

/-- Value of a hex digit, lower or upper case. -/
def hexDigitVal (c : Char) : Option Nat :=
  if 48 ≤ c.toNat && c.toNat ≤ 57 then some (c.toNat - 48)
  else if 97 ≤ c.toNat && c.toNat ≤ 102 then some (c.toNat - 87)
  else if 65 ≤ c.toNat && c.toNat ≤ 70 then some (c.toNat - 55)
  else none

/-- Body of a JSON string after the opening quote: returns the decoded
characters and the input after the closing quote.  Short escapes, `\uXXXX`
escapes and the strict-mode rejection of raw control characters follow the
Python decoder. -/
def parseStrBody : List Char → Except String (List Char × List Char)
  | [] => .error "Unterminated string"
  | c :: rest =>
      if c == '"' then .ok ([], rest)
      else if c == '\\' then
        match rest with
        | [] => .error "Unterminated string"
        | e :: rest2 =>
            if e == 'u' then
              match rest2 with
              | h1 :: h2 :: h3 :: h4 :: rest3 =>
                  match hexDigitVal h1, hexDigitVal h2, hexDigitVal h3, hexDigitVal h4 with
                  | some a, some b, some c2, some d =>
                      match parseStrBody rest3 with
                      | .ok (cs, r) =>
                          .ok (Char.ofNat (((a * 16 + b) * 16 + c2) * 16 + d) :: cs, r)
                      | .error err => .error err
                  | _, _, _, _ => .error "Invalid \\uXXXX escape"
              | _ => .error "Invalid \\uXXXX escape"
            else
              match (if e == '"' then some '"'
                     else if e == '\\' then some '\\'
                     else if e == '/' then some '/'
                     else if e == 'b' then some (Char.ofNat 8)
                     else if e == 'f' then some (Char.ofNat 12)
                     else if e == 'n' then some '\n'
                     else if e == 'r' then some '\r'
                     else if e == 't' then some '\t'
                     else none) with
              | some d =>
                  match parseStrBody rest2 with
                  | .ok (cs, r) => .ok (d :: cs, r)
                  | .error err => .error err
              | none => .error "Invalid escape"
      else if c.toNat < 32 then .error "Invalid control character"
      else
        match parseStrBody rest with
        | .ok (cs, r) => .ok (c :: cs, r)
        | .error err => .error err

/-- Numeric value of a digit run. -/
def digitsVal (l : List Char) : Nat :=
  l.foldl (fun a c => 10 * a + (c.toNat - 48)) 0

/-- An integer JSON number: optional minus sign and a digit run. -/
def parseNum (l : List Char) : Except String (Int × List Char) :=
  match l with
  | c :: rest =>
      if c == '-' then
        let ds := rest.takeWhile isDigitCh
        if ds.isEmpty then .error "Expecting value"
        else .ok (-(digitsVal ds : Int), rest.dropWhile isDigitCh)
      else
        let ds := (c :: rest).takeWhile isDigitCh
        if ds.isEmpty then .error "Expecting value"
        else .ok ((digitsVal ds : Int), (c :: rest).dropWhile isDigitCh)
  | [] => .error "Expecting value"

/-- Object members after the opening brace and any whitespace, when the
object is not empty: `"key": value` separated by commas, ending at the
closing brace.  `pv` is the value reader; the fuel decrements per member. -/
def parseFields (pv : List Char → Except String (SV × List Char)) :
    Nat → List Char → Except String (List (String × SV) × List Char)
  | 0, _ => .error "Fuel exhausted"
  | fuel + 1, l =>
      match l with
      | '"' :: t =>
          match parseStrBody t with
          | .error e => .error e
          | .ok (kcs, r1) =>
              match skipWs r1 with
              | ':' :: r2 =>
                  match pv r2 with
                  | .error e => .error e
                  | .ok (v, r3) =>
                      match skipWs r3 with
                      | ',' :: r4 =>
                          match parseFields pv fuel (skipWs r4) with
                          | .ok (ms, r5) => .ok ((String.mk kcs, v) :: ms, r5)
                          | .error e => .error e
                      | '}' :: r4 => .ok ([(String.mk kcs, v)], r4)
                      | _ => .error "Expecting ',' delimiter"
              | _ => .error "Expecting ':' delimiter"
      | _ => .error "Expecting property name enclosed in double quotes"

/-- Array items after the opening bracket, when the array is not empty. -/
def parseItems (pv : List Char → Except String (SV × List Char)) :
    Nat → List Char → Except String (List SV × List Char)
  | 0, _ => .error "Fuel exhausted"
  | fuel + 1, l =>
      match pv l with
      | .error e => .error e
      | .ok (v, r) =>
          match skipWs r with
          | ',' :: r2 =>
              match parseItems pv fuel r2 with
              | .ok (xs, r3) => .ok (v :: xs, r3)
              | .error e => .error e
          | ']' :: r2 => .ok ([v], r2)
          | _ => .error "Expecting ',' delimiter"

/-- One JSON value off the front of the input, returning it and the
unconsumed tail. -/
def parseVal : Nat → List Char → Except String (SV × List Char)
  | 0, _ => .error "Fuel exhausted"
  | fuel + 1, l =>
      match skipWs l with
      | [] => .error "Expecting value"
      | c :: t =>
          if c == '{' then
            match skipWs t with
            | '}' :: r => .ok (SV.obj [], r)
            | t2 =>
                match parseFields (parseVal fuel) fuel t2 with
                | .ok (ms, r) => .ok (SV.obj ms, r)
                | .error e => .error e
          else if c == '[' then
            match skipWs t with
            | ']' :: r => .ok (SV.arr [], r)
            | t2 =>
                match parseItems (parseVal fuel) fuel t2 with
                | .ok (xs, r) => .ok (SV.arr xs, r)
                | .error e => .error e
          else if c == '"' then
            match parseStrBody t with
            | .ok (cs, r) => .ok (SV.str (String.mk cs), r)
            | .error e => .error e
          else if c == 't' then
            match t with
            | 'r' :: 'u' :: 'e' :: r => .ok (SV.bool true, r)
            | _ => .error "Expecting value"
          else if c == 'f' then
            match t with
            | 'a' :: 'l' :: 's' :: 'e' :: r => .ok (SV.bool false, r)
            | _ => .error "Expecting value"
          else if c == 'n' then
            match t with
            | 'u' :: 'l' :: 'l' :: r => .ok (SV.null, r)
            | _ => .error "Expecting value"
          else if c == '-' || isDigitCh c then
            match parseNum (c :: t) with
            | .ok (n, r) => .ok (SV.num n, r)
            | .error e => .error e
          else .error "Expecting value"

/-- Modelled from the spec: the direct parse of a whole string as a
structured value — Python `json.loads`, standard library, not part of this
repository.  One value, surrounded by nothing but whitespace. -/
def json_loads (s : String) : Except String SV :=
  match parseVal (s.data.length + 1) s.data with
  | .error e => .error e
  | .ok (v, rest) =>
      match skipWs rest with
      | [] => .ok v
      | _ => .error "Extra data"

/-- Whitespace of the regular-expression class `\s`, ASCII range. -/
def reWs (c : Char) : Bool :=
  c == ' ' || c == '\t' || c == '\n' || c == '\r' || c.toNat == 12 || c.toNat == 11

/-- The fenced-block pattern of `parse_query_string` at one position:
given the text right after an opening triple backtick, the group the
pattern captures there, if the pattern matches.  The pattern tries the
optional language tag first, the first greedy whitespace run longest
first, the lazy group shortest first and the second greedy whitespace run
longest first — the preference order of a backtracking engine — and
requires a closing triple backtick. -/
def fencedGroupAt (t0 : List Char) : Option (List Char) :=
  (if t0.take 4 == "json".data then [t0.drop 4, t0] else [t0]).findSome? fun t1 =>
    ((List.range ((t1.takeWhile reWs).length + 1)).reverse).findSome? fun n =>
      let t2 := t1.drop n
      (List.range (t2.length + 1)).findSome? fun g =>
        let t3 := t2.drop g
        ((List.range ((t3.takeWhile reWs).length + 1)).reverse).findSome? fun m =>
          if (t3.drop m).take 3 == "```".data then some (t2.take g) else none

/-- Leftmost match of the fenced-block pattern: try every start position
left to right, as `re.search` does. -/
def fencedSearchAux : List Char → Option (List Char)
  | [] => none
  | c :: rest =>
      if (c :: rest).take 3 == "```".data then
        match fencedGroupAt ((c :: rest).drop 3) with
        | some g => some g
        | none => fencedSearchAux rest
      else fencedSearchAux rest

/-- The `re.search` for a fenced code block in `parse_query_string`,
returning the captured group. -/
def fencedSearch (s : String) : Option String :=
  (fencedSearchAux s.data).map String.mk

/-- The brace pattern of `parse_query_string` at one position: an opening
brace, then a greedy match of arbitrary characters, then a closing brace.
The greedy star backtracks from the longest candidate, so a match at an
opening brace extends to the last closing brace of the remaining text;
dropping the reversed text up to that last closing brace computes exactly
that span.  No closing brace anywhere after the opening one means no
match at this position. -/
def braceGroupAt : List Char → Option (List Char)
  | [] => none
  | c :: rest =>
      if c == '{' then
        let r := ((c :: rest).reverse).dropWhile (fun x => x != '}')
        if r.isEmpty then none else some r.reverse
      else none

/-- Leftmost match of the brace pattern. -/
def braceSearchAux : List Char → Option (List Char)
  | [] => none
  | c :: rest =>
      match braceGroupAt (c :: rest) with
      | some g => some g
      | none => braceSearchAux rest

/-- The `re.search` for a brace-delimited span in `parse_query_string`. -/
def braceSearch (s : String) : Option String :=
  (braceSearchAux s.data).map String.mk

/-- Source: `query_utils.parse_query_string` (spec: `recover`).  The
shape mirrors the source's nested `try`/`except`: a whole-string parse
first; on failure, the fenced-block search — and when a block is found,
its interior decides the outcome, a parse failure there being caught by
the outer `except` and re-raised as `ValueError`; only when no fenced
block exists is the brace search consulted; no match anywhere raises the
final `ValueError`.  A raised `ValueError` is the `.error` case; the
model's parse failure messages stand in for `str(e)` of the Python
exception. -/
def parse_query_string (query_string : String) : Except String SV :=
  match json_loads query_string with
  | .ok v => .ok v
  | .error _ =>
      match fencedSearch query_string with
      | some interior =>
          match json_loads interior with
          | .ok v => .ok v
          | .error e => .error ("Invalid JSON query string: " ++ e)
      | none =>
          match braceSearch query_string with
          | some span =>
              match json_loads span with
              | .ok v => .ok v
              | .error e => .error ("Invalid JSON query string: " ++ e)
          | none =>
              .error "Invalid JSON query string: Could not extract valid JSON from the query string"

/-! ## Serializer (spec-modelled) -/

/-- Decimal digit character. -/
def digitCh (n : Nat) : Char := "0123456789".data.getD n '0'

/-- Lower-case hex digit character. -/
def hexCh (n : Nat) : Char := "0123456789abcdef".data.getD n '0'

/-- Decimal digits of a natural number, most significant first. -/
def natDigits (n : Nat) : List Char :=
  if _h : n < 10 then [digitCh n]
  else natDigits (n / 10) ++ [digitCh (n % 10)]
termination_by n
decreasing_by
  exact Nat.div_lt_self (by omega) (by omega)

/-- Decimal rendering of an integer. -/
def renderInt (n : Int) : List Char :=
  if n < 0 then '-' :: natDigits n.natAbs else natDigits n.natAbs

/-- Minimal JSON escaping of one character: quote, backslash, and control
characters, the latter as a four-digit hex escape. -/
def escapeChar (c : Char) : List Char :=
  if c == '"' then ['\\', '"']
  else if c == '\\' then ['\\', '\\']
  else if c.toNat < 32 then ['\\', 'u', '0', '0', hexCh (c.toNat / 16), hexCh (c.toNat % 16)]
  else [c]

/-- Escape a character list. -/
def escapeList : List Char → List Char
  | [] => []
  | c :: rest => escapeChar c ++ escapeList rest

/-- A JSON string literal for `s`. -/
def renderStr (s : String) : List Char :=
  '"' :: escapeList s.data ++ ['"']

mutual

/-- Modelled from the spec: standard JSON serialization of a structured
value (the Python side is `json.dumps`, standard library, not part of this
repository), with compact separators. -/
def render : SV → List Char
  | SV.null => "null".data
  | SV.bool true => "true".data
  | SV.bool false => "false".data
  | SV.num n => renderInt n
  | SV.str s => renderStr s
  | SV.arr l => '[' :: (renderItems l ++ [']'])
  | SV.obj l => '{' :: (renderFields l ++ ['}'])

/-- Comma-separated item renders. -/
def renderItems : List SV → List Char
  | [] => []
  | [x] => render x
  | x :: y :: t => render x ++ ',' :: renderItems (y :: t)

/-- Comma-separated member renders, each a key literal, a colon and the
value. -/
def renderFields : List (String × SV) → List Char
  | [] => []
  | [(k, x)] => renderStr k ++ ':' :: render x
  | (k, x) :: m :: t => renderStr k ++ ':' :: render x ++ ',' :: renderFields (m :: t)

end

/-- Modelled from the spec: `serialize` — standard JSON serialization to a
string. -/
def serialize (v : SV) : String := String.mk (render v)

/-- Modelled from the spec (4.3 step 3): a paging value, when present,
must be a non-negative integer. -/
def pagingIntOk : Option SV → Bool
  | none => true
  | some (SV.num n) => decide (0 ≤ n)
  | some _ => false

/-- Modelled from the spec (4.3 step 4): the clause under the `"query"`
key, when present, is grammatically well-formed. -/
def goodQueryKey (fuel : Nat) (query_dict : List (String × SV)) : Bool :=
  match alookup query_dict "query" with
  | some qv => goodClause fuel qv
  | none => true

/-! # Lemmas -/

/-- Spec section 8 checks, evaluated on the embedding: a query matching a
schema field validates; an unknown field is reported by name. -/
theorem spec_examples_mapping :
    validate 9 (some [("properties", SV.obj [("title", SV.obj [("type", SV.str "text")])])])
      (SV.obj [("query", SV.obj [("match", SV.obj [("title", SV.str "x")])])])
      = .ok (true, none) ∧
    validate 9 (some [("properties", SV.obj [("title", SV.obj [("type", SV.str "text")])])])
      (SV.obj [("query", SV.obj [("match", SV.obj [("body", SV.str "x")])])])
      = .ok (false, some "Unknown fields in query: body") ∧
    validate 9 (some [("properties", SV.obj [("title", SV.obj [("type", SV.str "text")])])])
      (SV.obj [("query", SV.obj [("multi_match", SV.obj
          [("fields", SV.arr [SV.str "title^2", SV.str "body"])])])])
      = .ok (false, some "Unknown fields in query: body") ∧
    validate 9 none
      (SV.obj [("query", SV.obj [("nested", SV.obj
          [("query", SV.obj [("match_all", SV.obj [])])])])])
      = .ok (false, some "'nested' query must have a 'path' field") :=
  ⟨rfl, rfl, rfl, rfl⟩

/-- Every member of a joined list is a contiguous piece of the join. -/
theorem pyJoin_mem_infix (k : String) :
    ∀ l : List String, k ∈ l →
      ∃ p q : List Char, (pyJoin ", " l).data = p ++ k.data ++ q := by
  intro l
  induction l with
  | nil => intro h; cases h
  | cons a t ih =>
      intro h
      cases t with
      | nil =>
          have hk : k = a := by simpa using h
          subst hk
          exact ⟨[], [], by simp [pyJoin]⟩
      | cons b t2 =>
          rcases List.mem_cons.mp h with rfl | hmem
          · exact ⟨[], (", ").data ++ (pyJoin ", " (b :: t2)).data, by
              simp [pyJoin, String.data_append, List.append_assoc]⟩
          · obtain ⟨p, q, hpq⟩ := ih hmem
            exact ⟨(a ++ ", ").data ++ p, q, by
              simp [pyJoin, String.data_append, hpq, List.append_assoc]⟩

/-- A filter keeping the complement of a property nothing violates is
empty. -/
theorem filter_not_of_all (f : String → Bool) :
    ∀ l : List String, (∀ x ∈ l, f x = true) → l.filter (fun x => !(f x)) = [] := by
  intro l h
  rw [List.filter_eq_nil_iff]
  intro a ha
  simp [h a ha]

/-- A paging value the spec accepts is one the source's check passes. -/
theorem pagingIntOk_not_bad (o : Option SV) (h : pagingIntOk o = true) :
    badPagingValue o = false := by
  match o with
  | none => rfl
  | some (SV.num n) =>
      have : (0 : Int) ≤ n := of_decide_eq_true h
      simp [badPagingValue, pyIsInt, pyIntValue]
      omega
  | some (SV.null) | some (SV.bool _) | some (SV.str _) | some (SV.arr _)
  | some (SV.obj _) => simp [pagingIntOk] at h

/-- Items that are all spec-well-formed produce no error in the item
loop. -/
theorem firstErrWith_none (f : SV → Option String) (g : SV → Bool)
    (hfg : ∀ x, g x = true → f x = none) :
    ∀ items : List SV, items.all g = true → firstErrWith f items = none := by
  intro items
  induction items with
  | nil => intro _; rfl
  | cons x rest ih =>
      intro h
      rw [List.all_cons, Bool.and_eq_true] at h
      simp [firstErrWith, hfg x h.1, ih h.2]

/-- A spec-well-formed sub-clause value produces no error in the source's
per-sub-key check. -/
theorem clauseValCheck_none (f : SV → Option String) (g : SV → Bool)
    (hfg : ∀ x, g x = true → f x = none) (name : String) :
    ∀ o : Option SV, goodClauseVal g o = true → clauseValCheck f name o = none := by
  intro o h
  match o with
  | none => rfl
  | some (SV.obj m) =>
      have hm := hfg (SV.obj m) (by simpa [goodClauseVal] using h)
      simp [clauseValCheck, hm]
  | some (SV.arr items) =>
      have hm := firstErrWith_none f g hfg items (by simpa [goodClauseVal] using h)
      simp [clauseValCheck, hm]
  | some (SV.null) | some (SV.bool _) | some (SV.num _) | some (SV.str _) =>
      simp [goodClauseVal] at h

/-- Soundness of the spec-side clause grammar against the source's
structural validator: a grammatically well-formed clause validates
cleanly, at equal fuel. -/
theorem goodClause_sound : ∀ (fuel : Nat) (q : SV),
    goodClause fuel q = true → validate_query_structure fuel q = none := by
  intro fuel
  induction fuel with
  | zero => intro q h; simp [goodClause] at h
  | succ n ih =>
      intro q h
      match q with
      | SV.null | SV.bool _ | SV.num _ | SV.str _ | SV.arr _ =>
          simp [goodClause] at h
      | SV.obj [] => simp [goodClause] at h
      | SV.obj ((k, v) :: rest) =>
          simp only [goodClause, Bool.and_eq_true] at h
          obtain ⟨hmem, hbr⟩ := h
          by_cases hma : (k == "match_all" && (!(pythonTruthy v) || isEmptyDict v)) = true
          · simp [validate_query_structure, hma]
          · rw [Bool.not_eq_true] at hma
            by_cases hbool : k = "bool"
            · subst hbool
              rw [if_pos (by rfl)] at hbr
              match v with
              | SV.obj bl =>
                  simp only [Bool.and_eq_true] at hbr
                  obtain ⟨⟨⟨⟨hall, h1⟩, h2⟩, h3⟩, h4⟩ := hbr
                  have hnil : List.filter (fun c => !decide (c ∈ validBoolClauses))
                      (List.map Prod.fst bl) = [] := by
                    rw [List.filter_eq_nil_iff]
                    intro a ha
                    simpa using List.all_eq_true.mp hall a ha
                  simp [validate_query_structure, hma, hnil,
                    (show "bool" ∈ VALID_QUERY_TYPES by decide),
                    clauseValCheck_none _ _ ih "must" _ h1,
                    clauseValCheck_none _ _ ih "must_not" _ h2,
                    clauseValCheck_none _ _ ih "should" _ h3,
                    clauseValCheck_none _ _ ih "filter" _ h4]
              | SV.null | SV.bool _ | SV.num _ | SV.str _ | SV.arr _ =>
                  simp at hbr
            · by_cases hnested : k = "nested"
              · subst hnested
                rw [if_neg (by decide), if_pos (by rfl)] at hbr
                match v with
                | SV.obj nl =>
                    simp only [Bool.and_eq_true] at hbr
                    obtain ⟨hpath, hquery⟩ := hbr
                    obtain ⟨pv, hpv⟩ := Option.isSome_iff_exists.mp hpath
                    match hnq : alookup nl "query" with
                    | none => rw [hnq] at hquery; simp at hquery
                    | some nq =>
                        rw [hnq] at hquery
                        simp only [] at hquery
                        simp [validate_query_structure, hma, hpv, hnq,
                          (show "nested" ∈ VALID_QUERY_TYPES by decide), ih nq hquery]
                | SV.null | SV.bool _ | SV.num _ | SV.str _ | SV.arr _ =>
                    simp at hbr
              · have hb2 : (k == "bool") = false := by
                  simp [hbool]
                have hn2 : (k == "nested") = false := by
                  simp [hnested]
                simp [validate_query_structure, hma, hmem, hb2, hn2]
                exact List.elem_iff.mp hmem

/-! # Claim theorems -/

/-- C1 (amended): with no schema configured, every query document whose
top-level keys all lie in TopLevelKeys, whose paging values (when present)
are non-negative integers, and whose query clause (when present) is
grammatically well-formed per the spec's clause grammar, validates as
`{valid: true}` with no error message. -/
theorem C1_amended (fuel : Nat) (query_dict : List (String × SV))
    (htl : (query_dict.map Prod.fst).all (fun k => VALID_TOP_LEVEL_KEYS.contains k) = true)
    (hsize : pagingIntOk (alookup query_dict "size") = true)
    (hfrom : pagingIntOk (alookup query_dict "from") = true)
    (hq : goodQueryKey fuel query_dict = true) :
    validate fuel none (SV.obj query_dict) = .ok (true, none) := by
  have hnil : List.filter (fun k => !decide (k ∈ VALID_TOP_LEVEL_KEYS))
      (List.map Prod.fst query_dict) = [] := by
    rw [List.filter_eq_nil_iff]
    intro a ha
    simpa using List.all_eq_true.mp htl a ha
  have h1 : validate_top_level_structure query_dict = none := by
    simp [validate_top_level_structure, hnil, pagingIntOk_not_bad _ hsize,
      pagingIntOk_not_bad _ hfrom]
  unfold goodQueryKey at hq
  match hlk : alookup query_dict "query" with
  | none => simp [validate, h1, hlk]
  | some qv =>
      rw [hlk] at hq
      simp only [] at hq
      simp [validate, h1, hlk, goodClause_sound fuel qv hq]

/-- C1 (counterexample): three documents whose top-level keys all lie in
TopLevelKeys and whose clause types (where any exist) all lie in
ClauseTypes, yet `validate` rejects each — a string-valued paging key, an
empty query object, and a boolean composition whose body is not an
object. -/
theorem C1_counterexample :
    (VALID_TOP_LEVEL_KEYS.contains "size" = true ∧
      validate 9 none (SV.obj [("size", SV.str "x")])
        = .ok (false, some "'size' must be a non-negative integer")) ∧
    (validate 9 none (SV.obj [("query", SV.obj [])])
        = .ok (false, some "'query' cannot be empty")) ∧
    (VALID_QUERY_TYPES.contains "bool" = true ∧
      validate 9 none (SV.obj [("query", SV.obj [("bool", SV.str "x")])])
        = .ok (false, some "'bool' query must be a JSON object")) :=
  ⟨⟨by decide, rfl⟩, rfl, by decide, rfl⟩

/-- C1 (witness): the amended theorem applied to a concrete document with
paging and a boolean composition. -/
theorem C1_witness :
    validate 9 none (SV.obj
      [("query", SV.obj [("bool", SV.obj
          [("must", SV.arr [SV.obj [("match_all", SV.obj [])]])])]),
       ("size", SV.num 5)]) = .ok (true, none) :=
  C1_amended 9
    [("query", SV.obj [("bool", SV.obj
        [("must", SV.arr [SV.obj [("match_all", SV.obj [])]])])]),
     ("size", SV.num 5)]
    (by decide) (by decide) (by decide) (by decide)

/-- C2 (code bug record): on the mapping `{"properties": {"title":
"text"}}` — a malformed schema whose property definition is a string —
and a structurally valid query, the embedded `validate` raises
`AttributeError` out of the schema flattener (`field_def.get("type")` on
a `str`) instead of returning a `ValidationOutcome`. -/
theorem C2_crash_eval :
    validate 9 (some [("properties", SV.obj [("title", SV.str "text")])])
      (SV.obj [("query", SV.obj [("match", SV.obj [("title", SV.str "x")])])])
    = .error (PyExc.attributeError "'str' object has no attribute 'get'") := rfl

/-- C5: inside a boolean composition whose body keys all lie in
BoolSubClauses, the validator's result equals `boolOrderSpec` applied to
the lookups of the four clause-bearing sub-keys — a function of those
four lookups alone, independent of the body's input order, evaluating
must, must_not, should, filter in that fixed priority order with the
first error winning; concretely, the spec's example reports the
`must_not` sub-clause's `unknown_clause` only after `must` validates
cleanly, in either input order of the two sub-keys. -/
theorem C5_fixed_order :
    (∀ (fuel : Nat) (bool_query : List (String × SV)),
      (∀ c ∈ bool_query.map Prod.fst, validBoolClauses.contains c = true) →
      validate_query_structure (fuel + 1) (SV.obj [("bool", SV.obj bool_query)])
        = boolOrderSpec (validate_query_structure fuel)
            (alookup bool_query "must") (alookup bool_query "must_not")
            (alookup bool_query "should") (alookup bool_query "filter")) ∧
    validate 9 none (SV.obj [("query", SV.obj [("bool", SV.obj
        [("must", SV.arr [SV.obj [("match_all", SV.obj [])]]),
         ("must_not", SV.arr [SV.obj [("unknown_clause", SV.obj [])]])])])])
      = .ok (false, some "Error in 'must_not' clause: Unknown query type: unknown_clause") ∧
    validate 9 none (SV.obj [("query", SV.obj [("bool", SV.obj
        [("must_not", SV.arr [SV.obj [("unknown_clause", SV.obj [])]]),
         ("must", SV.arr [SV.obj [("match_all", SV.obj [])]])])])])
      = .ok (false, some "Error in 'must_not' clause: Unknown query type: unknown_clause") := by
  refine ⟨?_, rfl, rfl⟩
  intro fuel bool_query h
  have hnil : List.filter (fun c => !decide (c ∈ validBoolClauses))
      (List.map Prod.fst bool_query) = [] := by
    rw [List.filter_eq_nil_iff]
    intro a ha
    simpa using h a ha
  simp [validate_query_structure, boolOrderSpec, hnil,
    (show "bool" ∈ VALID_QUERY_TYPES by decide)]

/-- C5 (witness): the order theorem applied to a concrete one-key body. -/
theorem C5_witness :
    validate_query_structure 3 (SV.obj [("bool", SV.obj
        [("must", SV.obj [("match_all", SV.obj [])])])])
      = boolOrderSpec (validate_query_structure 2)
          (some (SV.obj [("match_all", SV.obj [])])) none none none := by
  exact C5_fixed_order.1 2 [("must", SV.obj [("match_all", SV.obj [])])] (by decide)

/-- C6: a document with any unknown top-level keys is rejected with the
message listing all of them together, joined in input order; every unknown
key occurs verbatim inside that message. -/
theorem C6_unknown_keys (fuel : Nat) (mapping : Option (List (String × SV)))
    (query_dict : List (String × SV))
    (h : (query_dict.map Prod.fst).filter (fun k => !(VALID_TOP_LEVEL_KEYS.contains k)) ≠ []) :
    validate fuel mapping (SV.obj query_dict)
      = .ok (false, some ("Unknown top-level keys: " ++ pyJoin ", "
          ((query_dict.map Prod.fst).filter (fun k => !(VALID_TOP_LEVEL_KEYS.contains k))))) ∧
    ∀ k ∈ (query_dict.map Prod.fst).filter (fun k => !(VALID_TOP_LEVEL_KEYS.contains k)),
      ∃ p q : List Char,
        ("Unknown top-level keys: " ++ pyJoin ", "
          ((query_dict.map Prod.fst).filter (fun k => !(VALID_TOP_LEVEL_KEYS.contains k)))).data
          = p ++ k.data ++ q := by
  constructor
  · have h2 : List.filter (fun k => !decide (k ∈ VALID_TOP_LEVEL_KEYS))
        (List.map Prod.fst query_dict) ≠ [] := by
      simpa using h
    have hne : (List.filter (fun k => !decide (k ∈ VALID_TOP_LEVEL_KEYS))
        (List.map Prod.fst query_dict)).isEmpty = false := by
      rw [List.isEmpty_eq_false]
      exact h2
    simp [validate, validate_top_level_structure, hne]
  · intro k hk
    obtain ⟨p, q, hpq⟩ := pyJoin_mem_infix k _ hk
    exact ⟨("Unknown top-level keys: ").data ++ p, q, by
      rw [String.data_append, hpq]
      simp [List.append_assoc]⟩

/-- C6 (witness): one unknown key injected into an otherwise valid
document. -/
theorem C6_witness :
    validate 3 none (SV.obj [("query", SV.obj [("match_all", SV.obj [])]),
        ("bogus_key", SV.null)])
      = .ok (false, some "Unknown top-level keys: bogus_key") :=
  (C6_unknown_keys 3 none
    [("query", SV.obj [("match_all", SV.obj [])]), ("bogus_key", SV.null)]
    (by decide)).1

/-- C8: a clause whose first key is `match_all` or `match_none` with an
empty-object or null body is accepted by the structural validator, for
any fuel, whatever else the clause object carries. -/
theorem C8_match_all_none (fuel : Nat) (k : String) (v : SV)
    (rest : List (String × SV))
    (hk : k = "match_all" ∨ k = "match_none") (hv : v = SV.obj [] ∨ v = SV.null) :
    validate_query_structure (fuel + 1) (SV.obj ((k, v) :: rest)) = none := by
  rcases hk with rfl | rfl <;> rcases hv with rfl | rfl <;> rfl

/-- C8 (witness): `match_none` with a null body. -/
theorem C8_witness :
    validate_query_structure 1 (SV.obj [("match_none", SV.null)]) = none :=
  C8_match_all_none 0 "match_none" SV.null [] (Or.inr rfl) (Or.inr rfl)

/-- C10: clause dispatch reads only the first key of a clause object —
validation of any clause equals validation of the singleton clause made
of its first pair, so extra keys are never examined; concretely,
a `match_all` clause carrying an extra `not_a_clause` key is accepted. -/
theorem C10_first_key_dispatch :
    (∀ (fuel : Nat) (k : String) (v : SV) (rest : List (String × SV)),
        validate_query_structure (fuel + 1) (SV.obj ((k, v) :: rest))
          = validate_query_structure (fuel + 1) (SV.obj [(k, v)])) ∧
    validate 2 none (SV.obj [("query", SV.obj
        [("match_all", SV.obj []), ("not_a_clause", SV.num 1)])]) = .ok (true, none) :=
  ⟨fun _ _ _ _ => rfl, rfl⟩

/-! ## Round-trip lemmas for the serializer and the JSON reader -/

/-- Value and digit-ness of the decimal digit characters. -/
theorem digitCh_facts : ∀ n, n < 10 → (digitCh n).toNat = 48 + n ∧ isDigitCh (digitCh n) = true := by
  decide

/-- Hex digits read back as their value. -/
theorem hexVal_hexCh : ∀ n, n < 16 → hexDigitVal (hexCh n) = some n := by
  decide

/-- The decimal rendering of a natural number is never empty. -/
theorem natDigits_ne_nil (n : Nat) : natDigits n ≠ [] := by
  rw [natDigits]
  split
  · simp
  · simp

/-- The decimal rendering of a natural number is all digits. -/
theorem natDigits_all_digits : ∀ n, (natDigits n).all isDigitCh = true := by
  intro n
  induction n using Nat.strong_induction_on with
  | _ n ih =>
      rw [natDigits]
      split
      · rename_i h
        simp [(digitCh_facts n h).2]
      · rename_i h
        rw [List.all_append]
        have h1 := ih (n / 10) (Nat.div_lt_self (by omega) (by omega))
        have h2 := (digitCh_facts (n % 10) (Nat.mod_lt _ (by omega))).2
        simp [h1, h2]

/-- Appending one digit multiplies the value by ten and adds it. -/
theorem digitsVal_append_last (xs : List Char) (c : Char) :
    digitsVal (xs ++ [c]) = 10 * digitsVal xs + (c.toNat - 48) := by
  simp [digitsVal, List.foldl_append]

/-- The digit run of a natural number reads back as that number. -/
theorem digitsVal_natDigits : ∀ n, digitsVal (natDigits n) = n := by
  intro n
  induction n using Nat.strong_induction_on with
  | _ n ih =>
      rw [natDigits]
      split
      · rename_i h
        have := (digitCh_facts n h).1
        simp [digitsVal]
        omega
      · rename_i h
        rw [digitsVal_append_last, ih (n / 10) (Nat.div_lt_self (by omega) (by omega))]
        have := (digitCh_facts (n % 10) (Nat.mod_lt _ (by omega))).1
        omega

/-- `takeWhile` and `dropWhile` split exactly at an all-satisfying prefix
followed by a failing head. -/
theorem takeWhile_all_append (p : Char → Bool) :
    ∀ (xs rest : List Char), xs.all p = true →
      (∀ c, rest.head? = some c → p c = false) →
      (xs ++ rest).takeWhile p = xs ∧ (xs ++ rest).dropWhile p = rest := by
  intro xs
  induction xs with
  | nil =>
      intro rest _ hrest
      cases rest with
      | nil => simp
      | cons c r =>
          have hc := hrest c rfl
          simp [List.takeWhile_cons, List.dropWhile_cons, hc]
  | cons x xs ih =>
      intro rest hall hrest
      rw [List.all_cons, Bool.and_eq_true] at hall
      have hr := ih rest hall.2 hrest
      simp [List.takeWhile_cons, List.dropWhile_cons, hall.1, hr.1, hr.2]

/-- Escaped string content reads back exactly, leaving the input after the
closing quote untouched. -/
theorem parseStrBody_escape : ∀ (cs rest : List Char),
    parseStrBody (escapeList cs ++ '"' :: rest) = .ok (cs, rest) := by
  intro cs
  induction cs with
  | nil =>
      intro rest
      rw [show escapeList [] ++ '"' :: rest = '"' :: rest from rfl,
        parseStrBody.eq_def]
      simp
  | cons c cs ih =>
      intro rest
      have hshape : escapeList (c :: cs) ++ '"' :: rest
          = escapeChar c ++ (escapeList cs ++ '"' :: rest) := by
        simp [escapeList, List.append_assoc]
      rw [hshape]
      by_cases h1 : c = '"'
      · subst h1
        rw [show escapeChar '"' = ['\\', '"'] from rfl]
        rw [show ['\\', '"'] ++ (escapeList cs ++ '"' :: rest)
            = '\\' :: '"' :: (escapeList cs ++ '"' :: rest) from rfl]
        rw [parseStrBody.eq_def]
        simp [ih rest]
      · by_cases h2 : c = '\\'
        · subst h2
          rw [show escapeChar '\\' = ['\\', '\\'] from rfl]
          rw [show ['\\', '\\'] ++ (escapeList cs ++ '"' :: rest)
              = '\\' :: '\\' :: (escapeList cs ++ '"' :: rest) from rfl]
          rw [parseStrBody.eq_def]
          simp [ih rest]
        · by_cases h3 : c.toNat < 32
          · have e1 : hexDigitVal (hexCh (c.toNat / 16)) = some (c.toNat / 16) :=
              hexVal_hexCh _ (by omega)
            have e2 : hexDigitVal (hexCh (c.toNat % 16)) = some (c.toNat % 16) :=
              hexVal_hexCh _ (by omega)
            have hesc : escapeChar c
                = ['\\', 'u', '0', '0', hexCh (c.toNat / 16), hexCh (c.toNat % 16)] := by
              simp [escapeChar, h1, h2, h3]
            rw [hesc]
            rw [show ['\\', 'u', '0', '0', hexCh (c.toNat / 16), hexCh (c.toNat % 16)]
                  ++ (escapeList cs ++ '"' :: rest)
                = '\\' :: 'u' :: '0' :: '0' :: hexCh (c.toNat / 16)
                  :: hexCh (c.toNat % 16) :: (escapeList cs ++ '"' :: rest) from rfl]
            rw [parseStrBody.eq_def]
            have hofc : Char.ofNat (c.toNat / 16 * 16 + c.toNat % 16) = c := by
              have hv : c.toNat / 16 * 16 + c.toNat % 16 = c.toNat := by omega
              rw [hv]
              exact Char.ofNat_toNat c
            simp [e1, e2, ih rest, hofc,
              (show hexDigitVal '0' = some 0 from by decide)]
          · have hq : (c == '"') = false := by
              simp [h1]
            have hb : (c == '\\') = false := by
              simp [h2]
            have hesc : escapeChar c = [c] := by
              simp [escapeChar, h1, h2, h3]
            rw [hesc]
            rw [show [c] ++ (escapeList cs ++ '"' :: rest)
                = c :: (escapeList cs ++ '"' :: rest) from rfl]
            rw [parseStrBody.eq_def]
            simp [hq, hb, h3, ih rest]

/-- A digit character is none of the tokens the value reader branches
on. -/
theorem digit_char_facts (c : Char) (h : isDigitCh c = true) :
    jsonWs c = false ∧ (c == '{') = false ∧ (c == '[') = false ∧ (c == '"') = false ∧
    (c == 't') = false ∧ (c == 'f') = false ∧ (c == 'n') = false ∧ (c == '-') = false ∧
    (c == ']') = false ∧ (c == '}') = false := by
  have hc : 48 ≤ c.toNat ∧ c.toNat ≤ 57 := by
    simpa [isDigitCh, Bool.and_eq_true] using h
  have hne : ∀ d : Char, ¬(48 ≤ d.toNat ∧ d.toNat ≤ 57) → (c == d) = false := by
    intro d hd
    rw [beq_eq_false_iff_ne]
    rintro rfl
    exact hd hc
  have hws : jsonWs c = false := by
    simp only [jsonWs, Bool.or_eq_false_iff]
    exact ⟨⟨⟨hne ' ' (by decide), hne '\t' (by decide)⟩, hne '\n' (by decide)⟩,
      hne '\r' (by decide)⟩
  exact ⟨hws, hne '{' (by decide), hne '[' (by decide), hne '"' (by decide),
    hne 't' (by decide), hne 'f' (by decide), hne 'n' (by decide), hne '-' (by decide),
    hne ']' (by decide), hne '}' (by decide)⟩

/-- The integer rendering parses back as the integer, whenever the
following input does not begin with a digit. -/
theorem parseNum_renderInt (n : Int) (rest : List Char)
    (hrest : ∀ c, rest.head? = some c → isDigitCh c = false) :
    parseNum (renderInt n ++ rest) = .ok (n, rest) := by
  have hall := natDigits_all_digits n.natAbs
  have hne := natDigits_ne_nil n.natAbs
  have hTD := takeWhile_all_append isDigitCh (natDigits n.natAbs) rest hall hrest
  have hie : (natDigits n.natAbs).isEmpty = false := by
    rw [List.isEmpty_eq_false]
    exact hne
  obtain ⟨d, ds, hds⟩ := List.exists_cons_of_ne_nil hne
  have hd_digit : isDigitCh d = true := by
    have := hall
    rw [hds, List.all_cons, Bool.and_eq_true] at this
    exact this.1
  have hd_dash : (d == '-') = false := (digit_char_facts d hd_digit).2.2.2.2.2.2.2.1
  by_cases hneg : n < 0
  · rw [renderInt, if_pos hneg]
    rw [show ('-' :: natDigits n.natAbs) ++ rest = '-' :: (natDigits n.natAbs ++ rest)
        from rfl]
    rw [parseNum]
    simp only [show ('-' == '-') = true from rfl, if_pos]
    rw [hTD.1, hTD.2, hie]
    rw [if_neg (by simp : ¬(false = true))]
    rw [show -((digitsVal (natDigits n.natAbs)) : Int) = n from by
      rw [digitsVal_natDigits]; omega]
  · rw [renderInt, if_neg hneg]
    rw [hds, show (d :: ds) ++ rest = d :: (ds ++ rest) from rfl]
    rw [parseNum]
    simp only [hd_dash]
    rw [show d :: (ds ++ rest) = (d :: ds) ++ rest from rfl, ← hds]
    rw [hTD.1, hTD.2, hie]
    rw [if_neg (by simp : ¬(false = true))]
    rw [show ((digitsVal (natDigits n.natAbs)) : Int) = n from by
      rw [digitsVal_natDigits]; omega]
    simp

/-- Heads after a known non-digit head are non-digit. -/
theorem head_cons_not_digit (c0 : Char) (t : List Char) (h : isDigitCh c0 = false) :
    ∀ c, (c0 :: t).head? = some c → isDigitCh c = false := by
  intro c hc
  simp at hc
  rwa [← hc]

/-- The first character of any render: it exists, is not whitespace, and
is not a closing bracket or brace. -/
theorem render_head (v : SV) : ∃ c t, render v = c :: t ∧ jsonWs c = false ∧
    (c == ']') = false ∧ (c == '}') = false := by
  match v with
  | SV.null => exact ⟨'n', _, rfl, by decide, by decide, by decide⟩
  | SV.bool true => exact ⟨'t', _, rfl, by decide, by decide, by decide⟩
  | SV.bool false => exact ⟨'f', _, rfl, by decide, by decide, by decide⟩
  | SV.str s => exact ⟨'"', _, rfl, by decide, by decide, by decide⟩
  | SV.arr l => exact ⟨'[', _, rfl, by decide, by decide, by decide⟩
  | SV.obj l => exact ⟨'{', _, rfl, by decide, by decide, by decide⟩
  | SV.num n =>
      by_cases hneg : n < 0
      · exact ⟨'-', natDigits n.natAbs,
          by simp [render, renderInt, hneg], by decide, by decide, by decide⟩
      · obtain ⟨d, ds, hds⟩ := List.exists_cons_of_ne_nil (natDigits_ne_nil n.natAbs)
        have hd : isDigitCh d = true := by
          have hall := natDigits_all_digits n.natAbs
          rw [hds, List.all_cons, Bool.and_eq_true] at hall
          exact hall.1
        have f := digit_char_facts d hd
        exact ⟨d, ds, by simp [render, renderInt, hneg, hds], f.1,
          f.2.2.2.2.2.2.2.2.1, f.2.2.2.2.2.2.2.2.2⟩

/-- A render is never empty. -/
theorem render_length_pos (v : SV) : 0 < (render v).length := by
  obtain ⟨c, t, hct, _⟩ := render_head v
  simp [hct]

/-- The value reader on an integer render dispatches to the number
reader. -/
theorem parseVal_num_branch (f : Nat) (n : Int) (r : List Char) :
    parseVal (f + 1) (renderInt n ++ r)
      = (match parseNum (renderInt n ++ r) with
         | .ok (m, rr) => .ok (SV.num m, rr)
         | .error e => .error e) := by
  by_cases hneg : n < 0
  · rw [renderInt, if_pos hneg]
    rfl
  · obtain ⟨d, ds, hds⟩ := List.exists_cons_of_ne_nil (natDigits_ne_nil n.natAbs)
    have hd : isDigitCh d = true := by
      have hall := natDigits_all_digits n.natAbs
      rw [hds, List.all_cons, Bool.and_eq_true] at hall
      exact hall.1
    have fcts := digit_char_facts d hd
    rw [renderInt, if_neg hneg, hds]
    rw [show (d :: ds) ++ r = d :: (ds ++ r) from rfl]
    rw [parseVal.eq_def]
    simp [skipWs, fcts.1, fcts.2.1, fcts.2.2.1, fcts.2.2.2.1, fcts.2.2.2.2.1,
      fcts.2.2.2.2.2.1, fcts.2.2.2.2.2.2.1, fcts.2.2.2.2.2.2.2.1, hd]

/-- The value reader after an opening brace and the quote of the first
key dispatches to the member loop. -/
theorem parseVal_obj_step (f : Nat) (t : List Char) :
    parseVal (f + 1) ('{' :: '"' :: t)
      = (match parseFields (parseVal f) f ('"' :: t) with
         | .ok (ms, r) => .ok (SV.obj ms, r)
         | .error e => .error e) := rfl

/-- The value reader after an opening bracket followed by a non-space,
non-bracket character dispatches to the item loop. -/
theorem parseVal_arr_step (f : Nat) (c : Char) (t : List Char)
    (hws : jsonWs c = false) (hcb : (c == ']') = false) :
    parseVal (f + 1) ('[' :: c :: t)
      = (match parseItems (parseVal f) f (c :: t) with
         | .ok (xs, r) => .ok (SV.arr xs, r)
         | .error e => .error e) := by
  have hred : parseVal (f + 1) ('[' :: c :: t)
      = (match skipWs (c :: t) with
         | ']' :: r => .ok (SV.arr [], r)
         | t2 => match parseItems (parseVal f) f t2 with
             | .ok (xs, r) => .ok (SV.arr xs, r)
             | .error e => .error e) := rfl
  have hskip : skipWs (c :: t) = c :: t := by
    simp [skipWs, hws]
  rw [hred, hskip]
  split
  · rename_i heq
    injection heq with h1 _
    subst h1
    simp at hcb
  · rfl

/-- The item loop reads back a non-empty rendered item list, leaving the
input after the closing bracket. -/
theorem parseItems_render (fv : Nat)
    (ihv : ∀ (v : SV) (r : List Char), (∀ c, r.head? = some c → isDigitCh c = false) →
        (render v ++ r).length < fv → parseVal fv (render v ++ r) = .ok (v, r)) :
    ∀ (xs : List SV) (lf : Nat) (rest : List Char),
      (renderItems xs ++ ']' :: rest).length < lf →
      (renderItems xs ++ ']' :: rest).length < fv →
      xs ≠ [] →
      parseItems (parseVal fv) lf (renderItems xs ++ ']' :: rest) = .ok (xs, rest) := by
  intro xs
  induction xs with
  | nil => intro lf rest _ _ h; exact absurd rfl h
  | cons x xs ih =>
      intro lf rest hlf hfv _
      cases lf with
      | zero => omega
      | succ lf =>
      cases xs with
      | nil =>
          rw [show renderItems [x] = render x from rfl] at hlf hfv ⊢
          rw [parseItems]
          rw [ihv x (']' :: rest) (head_cons_not_digit ']' rest (by decide)) (by omega)]
          rfl
      | cons y ys =>
          rw [show renderItems (x :: y :: ys)
              = render x ++ ',' :: renderItems (y :: ys) from rfl] at hlf hfv ⊢
          rw [List.append_assoc] at hlf hfv ⊢
          simp only [List.cons_append] at hlf hfv ⊢
          rw [parseItems]
          rw [ihv x (',' :: (renderItems (y :: ys) ++ ']' :: rest))
            (head_cons_not_digit ',' _ (by decide))
            (by simp [List.length_append] at hfv ⊢; omega)]
          have hx := render_length_pos x
          have hrec := ih lf rest
            (by simp [List.length_append] at hlf ⊢; omega)
            (by simp [List.length_append] at hfv ⊢; omega)
            (by simp)
          simp only [show skipWs (',' :: (renderItems (y :: ys) ++ ']' :: rest))
              = ',' :: (renderItems (y :: ys) ++ ']' :: rest) from rfl]
          simp [hrec]

/-- A non-empty rendered member list begins with the quote of its first
key. -/
theorem renderFields_cons_head (p : String × SV) (l : List (String × SV)) :
    ∃ T, renderFields (p :: l) = '"' :: T := by
  obtain ⟨k, x⟩ := p
  cases l with
  | nil => exact ⟨escapeList k.data ++ ['"'] ++ ':' :: render x, by
      simp [renderFields, renderStr, List.append_assoc]⟩
  | cons m2 ms2 => exact ⟨escapeList k.data ++ ['"'] ++ ':' :: render x
        ++ ',' :: renderFields (m2 :: ms2), by
      simp [renderFields, renderStr, List.append_assoc]⟩

/-- The member loop reads back a non-empty rendered member list, leaving
the input after the closing brace. -/
theorem parseFields_render (fv : Nat)
    (ihv : ∀ (v : SV) (r : List Char), (∀ c, r.head? = some c → isDigitCh c = false) →
        (render v ++ r).length < fv → parseVal fv (render v ++ r) = .ok (v, r)) :
    ∀ (ms : List (String × SV)) (lf : Nat) (rest : List Char),
      (renderFields ms ++ '}' :: rest).length < lf →
      (renderFields ms ++ '}' :: rest).length < fv →
      ms ≠ [] →
      parseFields (parseVal fv) lf (renderFields ms ++ '}' :: rest) = .ok (ms, rest) := by
  intro ms
  induction ms with
  | nil => intro lf rest _ _ h; exact absurd rfl h
  | cons m ms ih =>
      obtain ⟨k, x⟩ := m
      intro lf rest hlf hfv _
      cases lf with
      | zero => omega
      | succ lf =>
      cases ms with
      | nil =>
          rw [show renderFields [(k, x)] = renderStr k ++ ':' :: render x from rfl]
            at hlf hfv ⊢
          rw [show renderStr k = '"' :: (escapeList k.data ++ ['"']) from rfl]
            at hlf hfv ⊢
          simp only [List.append_assoc, List.cons_append, List.singleton_append,
            List.nil_append] at hlf hfv ⊢
          simp only [parseFields]
          rw [parseStrBody_escape k.data (':' :: (render x ++ '}' :: rest))]
          simp only [show skipWs (':' :: (render x ++ '}' :: rest))
              = ':' :: (render x ++ '}' :: rest) from rfl]
          rw [ihv x ('}' :: rest) (head_cons_not_digit '}' rest (by decide))
            (by simp [List.length_append] at hfv ⊢; omega)]
          simp only [show skipWs ('}' :: rest) = '}' :: rest from rfl]
      | cons m2 ms2 =>
          rw [show renderFields ((k, x) :: m2 :: ms2)
              = renderStr k ++ ':' :: render x ++ ',' :: renderFields (m2 :: ms2)
              from rfl] at hlf hfv ⊢
          rw [show renderStr k = '"' :: (escapeList k.data ++ ['"']) from rfl]
            at hlf hfv ⊢
          simp only [List.append_assoc, List.cons_append, List.singleton_append,
            List.nil_append] at hlf hfv ⊢
          simp only [parseFields]
          rw [parseStrBody_escape k.data
            (':' :: (render x ++ ',' :: (renderFields (m2 :: ms2) ++ '}' :: rest)))]
          simp only [show
              skipWs (':' :: (render x ++ ',' :: (renderFields (m2 :: ms2) ++ '}' :: rest)))
              = ':' :: (render x ++ ',' :: (renderFields (m2 :: ms2) ++ '}' :: rest))
              from rfl]
          rw [ihv x (',' :: (renderFields (m2 :: ms2) ++ '}' :: rest))
            (head_cons_not_digit ',' _ (by decide))
            (by simp [List.length_append] at hfv ⊢; omega)]
          obtain ⟨T2, hT2⟩ := renderFields_cons_head m2 ms2
          have hskip : skipWs (renderFields (m2 :: ms2) ++ '}' :: rest)
              = renderFields (m2 :: ms2) ++ '}' :: rest := by
            rw [hT2]
            rfl
          have hx := render_length_pos x
          have hrec := ih lf rest
            (by simp [List.length_append] at hlf ⊢; omega)
            (by simp [List.length_append] at hfv ⊢; omega)
            (by simp)
          simp only [show skipWs (',' :: (renderFields (m2 :: ms2) ++ '}' :: rest))
              = ',' :: (renderFields (m2 :: ms2) ++ '}' :: rest) from rfl]
          simp [hskip, hrec]

/-- Master round-trip: the value reader, on a rendered value followed by
input not beginning with a digit, returns exactly the value and the
following input, whenever the fuel exceeds the input length. -/
theorem parseVal_render : ∀ (fuel : Nat) (v : SV) (r : List Char),
    (∀ c, r.head? = some c → isDigitCh c = false) →
    (render v ++ r).length < fuel →
    parseVal fuel (render v ++ r) = .ok (v, r) := by
  intro fuel
  induction fuel with
  | zero => intro v r _ hlen; omega
  | succ f ih =>
      intro v r hdelim hlen
      match v with
      | SV.null => rfl
      | SV.bool true => rfl
      | SV.bool false => rfl
      | SV.num n =>
          rw [show render (SV.num n) = renderInt n from rfl] at hlen ⊢
          rw [parseVal_num_branch f n r, parseNum_renderInt n r hdelim]
      | SV.str s =>
          have hsh : render (SV.str s) ++ r = '"' :: (escapeList s.data ++ '"' :: r) := by
            simp [render, renderStr, List.append_assoc]
          rw [hsh]
          rw [show parseVal (f + 1) ('"' :: (escapeList s.data ++ '"' :: r))
              = (match parseStrBody (escapeList s.data ++ '"' :: r) with
                 | .ok (cs, rr) => .ok (SV.str (String.mk cs), rr)
                 | .error e => .error e) from rfl]
          rw [parseStrBody_escape s.data r]
      | SV.arr [] => rfl
      | SV.arr (x :: xs) =>
          have hsh : render (SV.arr (x :: xs)) ++ r
              = '[' :: (renderItems (x :: xs) ++ ']' :: r) := by
            simp [render, List.append_assoc]
          rw [hsh] at hlen ⊢
          obtain ⟨c, tt, hct, hws, hcb, _⟩ := render_head x
          have hriex : ∃ t2, renderItems (x :: xs) = c :: t2 := by
            cases xs with
            | nil => exact ⟨tt, by simp [renderItems, hct]⟩
            | cons y ys => exact ⟨tt ++ ',' :: renderItems (y :: ys), by
                simp [renderItems, hct, List.append_assoc]⟩
          obtain ⟨t2, ht2⟩ := hriex
          rw [ht2] at hlen ⊢
          rw [show (c :: t2) ++ ']' :: r = c :: (t2 ++ ']' :: r) from rfl] at hlen ⊢
          rw [parseVal_arr_step f c (t2 ++ ']' :: r) hws hcb]
          rw [show c :: (t2 ++ ']' :: r) = (c :: t2) ++ ']' :: r from rfl, ← ht2]
          rw [show c :: (t2 ++ ']' :: r) = (c :: t2) ++ ']' :: r from rfl, ← ht2]
            at hlen
          rw [parseItems_render f ih (x :: xs) f r
            (by simp [List.length_append] at hlen ⊢; omega)
            (by simp [List.length_append] at hlen ⊢; omega)
            (by simp)]
      | SV.obj [] => rfl
      | SV.obj (m :: ms) =>
          have hsh : render (SV.obj (m :: ms)) ++ r
              = '{' :: (renderFields (m :: ms) ++ '}' :: r) := by
            simp [render, List.append_assoc]
          rw [hsh] at hlen ⊢
          obtain ⟨T, hT⟩ := renderFields_cons_head m ms
          rw [hT] at hlen ⊢
          rw [show ('"' :: T) ++ '}' :: r = '"' :: (T ++ '}' :: r) from rfl] at hlen ⊢
          rw [parseVal_obj_step f (T ++ '}' :: r)]
          rw [show '"' :: (T ++ '}' :: r) = ('"' :: T) ++ '}' :: r from rfl, ← hT]
          rw [show '"' :: (T ++ '}' :: r) = ('"' :: T) ++ '}' :: r from rfl, ← hT]
            at hlen
          rw [parseFields_render f ih (m :: ms) f r
            (by simp [List.length_append] at hlen ⊢; omega)
            (by simp [List.length_append] at hlen ⊢; omega)
            (by simp)]

/-- The whole-string read of a serialized value returns the value. -/
theorem json_loads_serialize (v : SV) : json_loads (serialize v) = .ok v := by
  have h := parseVal_render ((render v).length + 1) v [] (fun c hc => nomatch hc)
    (by simp)
  rw [List.append_nil] at h
  rw [json_loads, show (serialize v).data = render v from rfl, h]
  rfl

/-- A non-empty `dropWhile` result starts with an element failing the
predicate. -/
theorem dropWhile_head_not (p : Char → Bool) :
    ∀ l : List Char, l.dropWhile p ≠ [] →
      ∃ h t, l.dropWhile p = h :: t ∧ p h = false := by
  intro l
  induction l with
  | nil => intro h; simp at h
  | cons c rest ih =>
      intro hne
      by_cases hc : p c = true
      · rw [List.dropWhile_cons, if_pos hc] at hne ⊢
        exact ih hne
      · rw [Bool.not_eq_true] at hc
        rw [List.dropWhile_cons, hc]
        exact ⟨c, rest, by simp, hc⟩

/-- Text without any closing brace has no brace-pattern match. -/
theorem braceSearchAux_no_close : ∀ l : List Char,
    (∀ c ∈ l, (c == '}') = false) → braceSearchAux l = none := by
  intro l
  induction l with
  | nil => intro _; rfl
  | cons c rest ih =>
      intro h
      have hr : ((c :: rest).reverse).dropWhile (fun x => x != '}') = [] := by
        rw [List.dropWhile_eq_nil_iff]
        intro x hx
        have hmem : x ∈ c :: rest := List.mem_reverse.mp hx
        simpa using h x hmem
      rw [braceSearchAux, braceGroupAt]
      by_cases hc : (c == '{') = true
      · simp only [hc, if_true, hr, List.isEmpty_nil]
        exact ih (fun x hx => h x (List.mem_cons_of_mem c hx))
      · rw [Bool.not_eq_true] at hc
        simp only [hc, Bool.false_eq_true, if_false]
        exact ih (fun x hx => h x (List.mem_cons_of_mem c hx))

/-- Characterization of the brace search: a match is a span of the text
whose preceding text has no opening brace, whose following text has no
closing brace, and which itself starts at an opening brace and ends at a
closing one — that is, from the first opening brace through the last
closing brace of the text. -/
theorem braceSearchAux_spec : ∀ (l g : List Char), braceSearchAux l = some g →
    ∃ p q, l = p ++ (g ++ q) ∧ (∀ c ∈ p, (c == '{') = false) ∧
      (∀ c ∈ q, (c == '}') = false) ∧
      g.head? = some '{' ∧ g.getLast? = some '}' := by
  intro l
  induction l with
  | nil => intro g h; simp [braceSearchAux] at h
  | cons c rest ih =>
      intro g h
      rw [braceSearchAux, braceGroupAt] at h
      by_cases hc : (c == '{') = true
      · simp only [hc, if_true] at h
        by_cases hre : (((c :: rest).reverse).dropWhile (fun x => x != '}')).isEmpty = true
        · have hnone : braceSearchAux rest = none := by
            apply braceSearchAux_no_close
            intro x hx
            have hall : ((c :: rest).reverse).dropWhile (fun x => x != '}') = [] :=
              List.isEmpty_iff.mp hre
            rw [List.dropWhile_eq_nil_iff] at hall
            have h2 := hall x (List.mem_reverse.mpr (List.mem_cons_of_mem c hx))
            simpa using h2
          simp only [hre, if_true, hnone] at h
          cases h
        · simp only [hre, Bool.false_eq_true, if_false] at h
          have hne : ((c :: rest).reverse).dropWhile (fun x => x != '}') ≠ [] := by
            intro hnil
            rw [hnil] at hre
            simp at hre
          obtain ⟨hd, tl, hdt, hph⟩ := dropWhile_head_not _ _ hne
          have hg : g = (((c :: rest).reverse).dropWhile (fun x => x != '}')).reverse := by
            cases h
            rfl
          have hsplit := List.takeWhile_append_dropWhile
            (p := fun x => x != '}') (l := (c :: rest).reverse)
          have hl : c :: rest
              = (((c :: rest).reverse).dropWhile (fun x => x != '}')).reverse
                ++ (((c :: rest).reverse).takeWhile (fun x => x != '}')).reverse := by
            have h3 := congrArg List.reverse hsplit
            rw [List.reverse_append, List.reverse_reverse] at h3
            exact h3.symm
          refine ⟨[], (((c :: rest).reverse).takeWhile (fun x => x != '}')).reverse,
            ?_, by simp, ?_, ?_, ?_⟩
          · simp only [List.nil_append, hg]
            exact hl
          · intro x hx
            have hmem := List.mem_reverse.mp hx
            have h4 := List.mem_takeWhile_imp hmem
            simpa using h4
          · have hgne : g ≠ [] := by
              rw [hg, hdt]
              simp
            obtain ⟨gh, gt, hght⟩ := List.exists_cons_of_ne_nil hgne
            have hl2 : c :: rest = gh :: (gt
                ++ (((c :: rest).reverse).takeWhile (fun x => x != '}')).reverse) := by
              rw [← List.cons_append, ← hght, hg]
              exact hl
            have hch : c = gh := by
              injection hl2
            rw [hght, List.head?_cons, ← hch]
            have hcc : c = '{' := beq_iff_eq.mp hc
            rw [hcc]
          · rw [hg, List.getLast?_reverse, hdt, List.head?_cons]
            have hdd : hd = '}' := by
              simpa using hph
            rw [hdd]
      · rw [Bool.not_eq_true] at hc
        simp only [hc, Bool.false_eq_true, if_false] at h
        obtain ⟨p, q, hl, hp, hq, hh, hlast⟩ := ih g h
        refine ⟨c :: p, q, by rw [List.cons_append, hl], ?_, hq, hh, hlast⟩
        intro x hx
        rcases List.mem_cons.mp hx with rfl | hx2
        · exact hc
        · exact hp x hx2

/-- C3 (amended): the recovery order as the code implements it — a
successful whole-string parse wins; otherwise, when a fenced block is
found, its interior alone decides the outcome (its parse failure is
final, the brace scan is not attempted); only when no fenced block exists
does the brace scan run, its match's parse deciding the outcome; the
spec's example, which has no fenced block, still recovers through the
brace scan. -/
theorem C3_amended :
    (∀ (s : String) (v : SV), json_loads s = .ok v → parse_query_string s = .ok v) ∧
    (∀ (s i : String) (e : String), json_loads s = .error e → fencedSearch s = some i →
      parse_query_string s
        = (match json_loads i with
           | .ok v => .ok v
           | .error e2 => .error ("Invalid JSON query string: " ++ e2))) ∧
    (∀ (s sp : String) (e : String), json_loads s = .error e → fencedSearch s = none →
      braceSearch s = some sp →
      parse_query_string s
        = (match json_loads sp with
           | .ok v => .ok v
           | .error e2 => .error ("Invalid JSON query string: " ++ e2))) ∧
    parse_query_string "Sure! \x7b\"a\":1\x7d done." = .ok (SV.obj [("a", SV.num 1)]) := by
  refine ⟨?_, ?_, ?_, rfl⟩
  · intro s v h
    rw [parse_query_string, h]
  · intro s i e h hf
    rw [parse_query_string, h, hf]
  · intro s sp e h hf hb
    rw [parse_query_string, h, hf, hb]

/-- C3 (witness): the whole-string conjunct applied to a direct JSON
input. -/
theorem C3_witness : parse_query_string "\x7b\x7d" = .ok (SV.obj []) :=
  C3_amended.1 "\x7b\x7d" (SV.obj []) rfl

/-- C3 (counterexample): a text whose whole-string parse fails and whose
fenced block has an unparseable interior; the brace span would parse, yet
recovery fails without attempting it — refuting the claim that the
brace-scan fallback is still attempted whenever the fenced strategy
produces no parseable value. -/
theorem C3_counterexample :
    json_loads "```x``` \x7b\"a\":1\x7d" = .error "Expecting value" ∧
    fencedSearch "```x``` \x7b\"a\":1\x7d" = some "x" ∧
    json_loads "x" = .error "Expecting value" ∧
    braceSearch "```x``` \x7b\"a\":1\x7d" = some "\x7b\"a\":1\x7d" ∧
    json_loads "\x7b\"a\":1\x7d" = .ok (SV.obj [("a", SV.num 1)]) ∧
    parse_query_string "```x``` \x7b\"a\":1\x7d"
      = .error "Invalid JSON query string: Expecting value" :=
  ⟨rfl, rfl, rfl, rfl, rfl, rfl⟩

/-- C4 (amended): when the whole-string parse fails and no fenced block
exists, the brace scan attempts exactly the substring running from the
first opening brace of the text through its last closing brace — not the
structurally matching one — so with several independent objects the
attempted span covers them all and recovery succeeds only if that whole
span parses; on the two-object example the span is the greedy one and
recovery fails. -/
theorem C4_amended :
    (∀ (l g : List Char), braceSearchAux l = some g →
      ∃ p q, l = p ++ (g ++ q) ∧ (∀ c ∈ p, (c == '{') = false) ∧
        (∀ c ∈ q, (c == '}') = false) ∧
        g.head? = some '{' ∧ g.getLast? = some '}') ∧
    braceSearch "x \x7b\"a\":1\x7d y \x7b\"b\":2\x7d z"
      = some "\x7b\"a\":1\x7d y \x7b\"b\":2\x7d" ∧
    parse_query_string "x \x7b\"a\":1\x7d y \x7b\"b\":2\x7d z"
      = .error "Invalid JSON query string: Extra data" :=
  ⟨braceSearchAux_spec, rfl, rfl⟩

/-- C4 (witness): the span characterization applied to the two-object
example. -/
theorem C4_witness :
    ∃ p q, "x \x7b\"a\":1\x7d y \x7b\"b\":2\x7d z".data
        = p ++ ("\x7b\"a\":1\x7d y \x7b\"b\":2\x7d".data ++ q) ∧
      (∀ c ∈ p, (c == '{') = false) ∧ (∀ c ∈ q, (c == '}') = false) ∧
      "\x7b\"a\":1\x7d y \x7b\"b\":2\x7d".data.head? = some '{' ∧
      "\x7b\"a\":1\x7d y \x7b\"b\":2\x7d".data.getLast? = some '}' :=
  C4_amended.1 "x \x7b\"a\":1\x7d y \x7b\"b\":2\x7d z".data
    "\x7b\"a\":1\x7d y \x7b\"b\":2\x7d".data rfl

/-- C4 (counterexample): on the two-object text, the attempted span is
the greedy one, not the structurally matching first object — which would
have parsed — and recovery fails. -/
theorem C4_counterexample :
    braceSearch "x \x7b\"a\":1\x7d y \x7b\"b\":2\x7d z"
      = some "\x7b\"a\":1\x7d y \x7b\"b\":2\x7d" ∧
    some "\x7b\"a\":1\x7d y \x7b\"b\":2\x7d" ≠ some "\x7b\"a\":1\x7d" ∧
    json_loads "\x7b\"a\":1\x7d" = .ok (SV.obj [("a", SV.num 1)]) ∧
    parse_query_string "x \x7b\"a\":1\x7d y \x7b\"b\":2\x7d z"
      = .error "Invalid JSON query string: Extra data" :=
  ⟨rfl, by decide, rfl, rfl⟩

/-- C9: recovery after standard serialization is the identity — the
direct-parse strategy succeeds and reproduces the value exactly,
including object member order. -/
theorem C9_roundtrip (v : SV) : parse_query_string (serialize v) = .ok v := by
  rw [parse_query_string, json_loads_serialize v]
